import Mathlib

/-!
Verification of the tile-windowed raster acquisition engine
(`src/modules/tilematrix_io.py` and `src/mapchete/io_utils/raster_data.py`)
against its natural-language specification.

Arrays are modelled shape-explicitly, numpy-style: a shape `(rows, cols)`
together with a total data function, plus a dtype tag where the claims need
it.  Masked arrays carry an additional boolean mask function (`true` means
the pixel is masked/invalid, following `numpy.ma` conventions).
-/

namespace TilematrixIO

/-- A numpy-style 2-D array: explicit shape, dtype tag, total data function.
Out-of-shape indices are irrelevant (never inspected by shape-aware code). -/
structure NpArray where
  rows : Nat
  cols : Nat
  dtype : String
  data : Nat → Nat → Int

/-- `np.concatenate((a, b), axis=0)`: stack `b` below `a`. -/
def concatRows (a b : NpArray) : NpArray :=
  { rows := a.rows + b.rows
    cols := a.cols
    dtype := a.dtype
    data := fun i j => if i < a.rows then a.data i j else b.data (i - a.rows) j }

/-- `np.concatenate((a, b), axis=1)`: put `b` to the right of `a`. -/
def concatCols (a b : NpArray) : NpArray :=
  { rows := a.rows
    cols := a.cols + b.cols
    dtype := a.dtype
    data := fun i j => if j < a.cols then a.data i j else b.data i (j - a.cols) }

/-- `nullarray = np.empty((r, c), dtype="int16"); nullarray[:] = nodata`, the
padding arrays synthesized in `read_raster_window`. -/
def nodata_padding (r c : Nat) (nodata : Int) : NpArray :=
  { rows := r, cols := c, dtype := "int16", data := fun _ _ => nodata }

/-- `clean_pixel_coordinates(coordinate, maximum)` from
`src/modules/tilematrix_io.py`: crops a pixel coordinate to `0` or `maximum`
if necessary and returns an offset if necessary (Python `None` ↦ `none`).
Note the second test looks at the already-cropped coordinate and overwrites
the offset. -/
def clean_pixel_coordinates (coordinate maximum : Int) : Int × Option Int :=
  let r1 : Int × Option Int :=
    if coordinate < 0 then (0, some (-coordinate)) else (coordinate, none)
  if r1.1 > maximum then (maximum, some (r1.1 - maximum)) else r1

/-- Python truthiness of the offsets (`if minrow_offset:`): `None` and `0`
are falsy. -/
def offsetTruthy : Option Int → Bool
  | none => false
  | some k => k != 0

/-- Extract a padding width from an offset (`None` contributes nothing). -/
def offNat : Option Int → Nat
  | none => 0
  | some k => k.toNat

/-- The two row-padding steps of `read_raster_window` (lines 81–90 of
`src/modules/tilematrix_io.py`), in source order: top then bottom. -/
def padVert (wd0 : NpArray) (nodata : Int)
    (minrow_offset maxrow_offset : Option Int) : NpArray :=
  let wd1 := if offsetTruthy minrow_offset then
      concatRows (nodata_padding (offNat minrow_offset) wd0.cols nodata) wd0
    else wd0
  let wd2 := if offsetTruthy maxrow_offset then
      concatRows wd1 (nodata_padding (offNat maxrow_offset) wd1.cols nodata)
    else wd1
  wd2

/-- The two column-padding steps of `read_raster_window` (lines 91–100), in
source order: left then right. -/
def padHoriz (wd2 : NpArray) (nodata : Int)
    (mincol_offset maxcol_offset : Option Int) : NpArray :=
  let wd3 := if offsetTruthy mincol_offset then
      concatCols (nodata_padding wd2.rows (offNat mincol_offset) nodata) wd2
    else wd2
  let wd4 := if offsetTruthy maxcol_offset then
      concatCols wd3 (nodata_padding wd3.rows (offNat maxcol_offset) nodata)
    else wd3
  wd4

/-- The four nodata-padding steps of `read_raster_window` (lines 81–100 of
`src/modules/tilematrix_io.py`), in source order: top, bottom, left, right. -/
def pad_window (wd0 : NpArray) (nodata : Int)
    (minrow_offset maxrow_offset mincol_offset maxcol_offset : Option Int) :
    NpArray :=
  padHoriz (padVert wd0 nodata minrow_offset maxrow_offset) nodata
    mincol_offset maxcol_offset

/-- Effective padding width of an offset: the amount actually concatenated
by a padding branch (`None` and `0` are falsy, so they pad nothing). -/
def effOff (o : Option Int) : Nat :=
  if offsetTruthy o then offNat o else 0

/-- The window-resolution and padding stage of `read_raster_window` (lines
67–100): clean the four requested pixel coordinates against the source shape
`(H, W)`, read the clamped window from the source (`source.read` returns a
`(maxrow − minrow) × (maxcol − mincol)` array of source pixels in the
source's dtype), then nodata-pad each clipped edge. -/
def window_stage (H W : Int) (src : Int → Int → Int) (src_dtype : String)
    (nodata : Int) (minrow maxrow mincol maxcol : Int) : NpArray :=
  let rminrow := clean_pixel_coordinates minrow H
  let rmaxrow := clean_pixel_coordinates maxrow H
  let rmincol := clean_pixel_coordinates mincol W
  let rmaxcol := clean_pixel_coordinates maxcol W
  let window_data : NpArray :=
    { rows := (rmaxrow.1 - rminrow.1).toNat
      cols := (rmaxcol.1 - rmincol.1).toNat
      dtype := src_dtype
      data := fun i j => src (rminrow.1 + i) (rmincol.1 + j) }
  pad_window window_data nodata rminrow.2 rmaxrow.2 rmincol.2 rmaxcol.2

/-- `destination_pixel` computation of `read_raster_window` (lines 42–45):
`px_per_tile + pixelbuffer * 2` when a truthy pixelbuffer is passed, plain
`px_per_tile` otherwise (Python `None` and `0` are both falsy). -/
def destination_pixel (px_per_tile : Nat) (pixelbuffer : Option Nat) : Nat :=
  match pixelbuffer with
  | some pb => if pb ≠ 0 then px_per_tile + pb * 2 else px_per_tile
  | none => px_per_tile

/-- The inputs of `read_raster_window` that the window/warp pipeline
consumes: the `tilify` flag, the result of the
`tile_geom.intersects(source_envelope)` assertion, the tile grid size and
pixel buffer, the source extent/pixels/dtype/nodata, and the four window
pixel coordinates obtained from `source.index` of the transformed bounds. -/
structure RRWInput where
  tilify : Bool
  intersects : Bool
  px_per_tile : Nat
  pixelbuffer : Option Nat
  H : Int
  W : Int
  src : Int → Int → Int
  src_dtype : String
  nodata : Int
  minrow : Int
  maxrow : Int
  mincol : Int
  maxcol : Int

/-- `read_raster_window` from `src/modules/tilematrix_io.py`.  The warp
(`rasterio.warp.reproject` filling the pre-allocated
`np.zeros(destination_shape, np.int16)`, line 49) is abstracted as a
function from the padded window to an optional destination grid: `none`
models the `except` branch at lines 132–135, which re-raises so the outer
handler returns `(None, None)`.  A failing intersection assertion (line 37)
lands in the same outer handler. -/
def read_raster_window (inp : RRWInput)
    (warp : NpArray → Option (Nat → Nat → Int)) : Option NpArray :=
  if !inp.intersects then none
  else
    let dp := destination_pixel inp.px_per_tile inp.pixelbuffer
    let window_data := window_stage inp.H inp.W inp.src inp.src_dtype
      inp.nodata inp.minrow inp.maxrow inp.mincol inp.maxcol
    if inp.tilify then
      match warp window_data with
      | some f => some { rows := dp, cols := dp, dtype := "int16", data := f }
      | none => none
    else
      some window_data

/-- Shape of an optional array result. -/
def optShape : Option NpArray → Option (Nat × Nat)
  | none => none
  | some a => some (a.rows, a.cols)

/-- A warp that always fails (models `reproject` raising an exception). -/
def failingWarp : NpArray → Option (Nat → Nat → Int) := fun _ => none

/-- A warp that always succeeds with an all-zero destination grid. -/
def constWarp : NpArray → Option (Nat → Nat → Int) := fun _ => some (fun _ _ => 0)

/-- A concrete example source grid used in witnesses. -/
def exSrc : Int → Int → Int := fun r c => 10 * r + c

/-- Concrete input for counterexamples: tilify disabled, 4 px tiles, no
pixel buffer, a fully in-bounds 2×2 window of a 2×2 source. -/
def exNoTilify : RRWInput :=
  { tilify := false, intersects := true, px_per_tile := 4, pixelbuffer := none
    H := 2, W := 2, src := fun _ _ => 7, src_dtype := "int16", nodata := -1
    minrow := 0, maxrow := 2, mincol := 0, maxcol := 2 }

/-- Concrete input with tilify enabled and a pixel buffer of 1. -/
def exTilify : RRWInput :=
  { tilify := true, intersects := true, px_per_tile := 4, pixelbuffer := some 1
    H := 2, W := 2, src := fun _ _ => 7, src_dtype := "int16", nodata := -1
    minrow := 0, maxrow := 2, mincol := 0, maxcol := 2 }

end TilematrixIO

namespace RasterData

/-- A numpy masked array as handled by
`src/mapchete/io_utils/raster_data.py`: shape plus data and mask functions;
`mask i j = true` means the pixel is masked/invalid (`numpy.ma`
convention). -/
structure MaskedArray where
  rows : Nat
  cols : Nat
  data : Nat → Nat → Int
  mask : Nat → Nat → Bool

/-- `masked_array(zeros(shape, dtype), mask=True)`: an entirely invalid
band at the given shape. -/
def allInvalid (r c : Nat) : MaskedArray :=
  { rows := r, cols := c, data := fun _ _ => 0, mask := fun _ _ => true }

/-- One merge step of `Sentinel2Tile._bands_from_cache` (lines 383–387):
`band = masked_array(data=np.where(band.mask, srid_band, band),
mask=np.where(band.mask, srid_band.mask, band.mask))`. -/
def mergeStep (band srid_band : MaskedArray) : MaskedArray :=
  { rows := band.rows
    cols := band.cols
    data := fun i j =>
      if band.mask i j then srid_band.data i j else band.data i j
    mask := fun i j =>
      if band.mask i j then srid_band.mask i j else band.mask i j }

/-- The compositing loop: start entirely invalid at the tile shape and fold
the per-SRID group arrays over it in order. -/
def mergeGroups (r c : Nat) (groups : List MaskedArray) : MaskedArray :=
  groups.foldl mergeStep (allInvalid r c)

/-- The session band cache `_np_band_cache`: band index ↦ masked array. -/
abbrev Cache := List (Int × MaskedArray)

/-- Dictionary lookup in the band cache. -/
def cacheLookup : Cache → Int → Option MaskedArray
  | [], _ => none
  | (k, v) :: rest, i => if k = i then some v else cacheLookup rest i

/-- One iteration of the `_bands_from_cache` generator body (lines
415–432): if the index is not cached, perform the read/warp
(`read_raster_window(...).next()` — or the multi-source merge — abstracted
as `reader`) and store the result; then yield the cached value.  The `Nat`
counts underlying read/warp invocations. -/
def bands_step (reader : Int → MaskedArray) (cache : Cache) (i : Int) :
    MaskedArray × Cache × Nat :=
  match cacheLookup cache i with
  | some band => (band, cache, 0)
  | none => (reader i, (i, reader i) :: cache, 1)

/-- The `_bands_from_cache` generator run to completion over a list of
indexes: yields the bands in order, threading the cache and counting
reads. -/
def bands_from_cache (reader : Int → MaskedArray) :
    Cache → List Int → List MaskedArray × Cache × Nat
  | cache, [] => ([], cache, 0)
  | cache, i :: rest =>
    let s := bands_step reader cache i
    let t := bands_from_cache reader s.2.1 rest
    (s.1 :: t.1, t.2.1, s.2.2 + t.2.2)

/-- The `not band.mask.all()` test of `is_empty`: true when the band has at
least one valid pixel inside its shape. -/
def hasValidPixel (a : MaskedArray) : Bool :=
  decide (∃ i < a.rows, ∃ j < a.cols, a.mask i j = false)

/-- The band loop of `is_empty` (lines 105–111): iterate the cached bands
in order, breaking at the first band with a valid pixel. -/
def is_empty_loop (reader : Int → MaskedArray) :
    Cache → List Int → Bool × Cache × Nat
  | cache, [] => (true, cache, 0)
  | cache, i :: rest =>
    let s := bands_step reader cache i
    if hasValidPixel s.1 then (false, s.2.1, s.2.2)
    else
      let t := is_empty_loop reader s.2.1 rest
      (t.1, t.2.1, s.2.2 + t.2.2)

/-- `RasterProcessTile.is_empty` (lines 86–111): true with no band read
when the tile bbox misses the source process area; true when no source
tile paths resolve; otherwise the band loop decides. -/
def is_empty (intersects : Bool) (tile_paths : List String)
    (reader : Int → MaskedArray) (cache : Cache) (band_indexes : List Int) :
    Bool × Cache × Nat :=
  if !intersects then (true, cache, 0)
  else if tile_paths.isEmpty then (true, cache, 0)
  else is_empty_loop reader cache band_indexes

/-- A cache that only holds values the reader would produce — the
invariant `_bands_from_cache` maintains within a session (the cache starts
empty and is only ever filled with reader results). -/
def consistent (cache : Cache) (reader : Int → MaskedArray) : Prop :=
  ∀ k v, cacheLookup cache k = some v → v = reader k

/-- The known resampling methods.  Modelled from the spec:
`RESAMPLING_METHODS` lives in `mapchete/io_utils/io_funcs.py`, which is not
among the sources; §4.2 of the spec lists the selectable algorithms. -/
def RESAMPLING_METHODS : List String :=
  ["nearest", "bilinear", "cubic", "cubic_spline", "lanczos", "average",
    "mode"]

/-- The session-open errors of `RasterFileTile.__init__` (an `IOError` for
a missing input file, a `ValueError` for each invalid parameter). -/
inductive InitError
  | sourceNotFound
  | negativePixelbuffer
  | nonIntegerPixelbuffer
  | unknownResampling

/-- Parameters of a session-open call (`RasterFileTile.__init__`, lines
156–199): whether the named input file exists, the pixel buffer (a
rational models an arbitrary Python number; `Rat.isInt` models the
`isinstance(pixelbuffer, int)` test), and the resampling method name. -/
structure InitParams where
  fileExists : Bool
  pixelbuffer : Rat
  resampling : String

/-- `RasterFileTile.__init__`: the four eager validations in source order,
then the metadata read (`_read_metadata`).  Returns the raised error, if
any, together with the number of source accesses performed before
returning. -/
def rasterFileTile_init (p : InitParams) : Except InitError Unit × Nat :=
  if !p.fileExists then (Except.error InitError.sourceNotFound, 0)
  else if ¬ (0 ≤ p.pixelbuffer) then
    (Except.error InitError.negativePixelbuffer, 0)
  else if !p.pixelbuffer.isInt then
    (Except.error InitError.nonIntegerPixelbuffer, 0)
  else if !(RESAMPLING_METHODS.contains p.resampling) then
    (Except.error InitError.unknownResampling, 0)
  else (Except.ok (), 1)

/-- Whether a session-open outcome raised an error. -/
def raised : Except InitError Unit × Nat → Bool
  | (Except.error _, _) => true
  | (Except.ok _, _) => false

/-- The `indexes` argument of `read`/`is_empty`: `None`, a single integer,
or a list — the shapes `_get_band_indexes` distinguishes. -/
inductive Indexes
  | none
  | scalar (n : Int)
  | list (l : List Int)

/-- Python truthiness of the `indexes` argument (`if indexes:`): `None`,
`0` and the empty list are all falsy. -/
def indexesTruthy : Indexes → Bool
  | Indexes.none => false
  | Indexes.scalar n => n != 0
  | Indexes.list l => !l.isEmpty

/-- `_get_band_indexes` (lines 434–444): a truthy list is returned as is,
a truthy scalar is wrapped in a singleton list, and anything falsy resolves
to `range(1, inp_handler.indexes + 1)`. -/
def get_band_indexes (band_count : Nat) (indexes : Indexes) : List Int :=
  if indexesTruthy indexes then
    match indexes with
    | Indexes.list l => l
    | Indexes.scalar n => [n]
    | Indexes.none => []
  else (List.range band_count).map (fun k : Nat => (k : Int) + 1)

/-- `RasterFileTile.read` (lines 207–216): resolve the band indexes; with
exactly one resolved index return the single band
(`_bands_from_cache(...).next()`), otherwise return the sequence of bands
(the generator, modelled eagerly). -/
def read (reader : Int → MaskedArray) (cache : Cache) (band_count : Nat)
    (indexes : Indexes) : Sum MaskedArray (List MaskedArray) :=
  match get_band_indexes band_count indexes with
  | [i] => Sum.inl (bands_step reader cache i).1
  | bi => Sum.inr (bands_from_cache reader cache bi).1

/-- Whether `read` returned a single band rather than a sequence. -/
def isSingle : Sum MaskedArray (List MaskedArray) → Bool
  | Sum.inl _ => true
  | Sum.inr _ => false

/-- An example band reader: every band entirely invalid at shape 2×2. -/
def exReader : Int → MaskedArray := fun _ => allInvalid 2 2

/-- Example compositing group: 2×2 checkerboard, valid where `i+j` even. -/
def exGroupA : MaskedArray :=
  { rows := 2, cols := 2, data := fun _ _ => 11
    mask := fun i j => (i + j) % 2 != 0 }

/-- Example compositing group: the complementary 2×2 checkerboard. -/
def exGroupB : MaskedArray :=
  { rows := 2, cols := 2, data := fun _ _ => 22
    mask := fun i j => (i + j) % 2 == 0 }

end RasterData

namespace TilematrixIO

/-- C1 helper: with `0 ≤ m` and `c ≤ m` the excess branch never fires. -/
theorem clean_pixel_coordinates_lo (c m : Int) (hm : 0 ≤ m) (hc : c ≤ m) :
    clean_pixel_coordinates c m =
      (max 0 c, if c < 0 then some (-c) else none) := by
  unfold clean_pixel_coordinates
  by_cases h : c < 0
  · simp only [h, if_pos]
    have : ¬ ((0 : Int) > m) := by omega
    simp [this, max_eq_left (le_of_lt h)]
  · simp only [h, if_neg, if_false]
    have : ¬ (c > m) := by omega
    simp [this, h]
    omega

/-- C1 helper: with `0 ≤ c` the deficit branch never fires. -/
theorem clean_pixel_coordinates_hi (c m : Int) (hc : 0 ≤ c) :
    clean_pixel_coordinates c m =
      (min m c, if c > m then some (c - m) else none) := by
  unfold clean_pixel_coordinates
  have h : ¬ (c < 0) := by omega
  by_cases h2 : c > m
  · simp [h, h2]
    omega
  · simp [h, h2]
    omega

/-- C1: for every integer coordinate `c` and non-negative maximum `m`,
`clean_pixel_coordinates` clamps into `[0, m]` and reports the clipped
amount exactly: `c < 0` gives `(0, -c)`; `c > m` gives `(m, c − m)`;
otherwise the coordinate is unchanged with no offset; and any reported
offset is non-negative. -/
theorem clean_pixel_coordinates_spec (c m : Int) (hm : 0 ≤ m) :
    (c < 0 → clean_pixel_coordinates c m = (0, some (-c)))
    ∧ (c > m → clean_pixel_coordinates c m = (m, some (c - m)))
    ∧ (0 ≤ c → c ≤ m → clean_pixel_coordinates c m = (c, none))
    ∧ (∀ off : Int, (clean_pixel_coordinates c m).2 = some off → 0 ≤ off) := by
  refine ⟨?_, ?_, ?_, ?_⟩
  · intro h
    rw [clean_pixel_coordinates_lo c m hm (by omega)]
    simp [h]
    omega
  · intro h
    rw [clean_pixel_coordinates_hi c m (by omega)]
    simp [h]
    omega
  · intro h1 h2
    rw [clean_pixel_coordinates_lo c m hm h2]
    simp [h1]
  · intro off hoff
    by_cases h : c < 0
    · rw [clean_pixel_coordinates_lo c m hm (by omega)] at hoff
      simp [h] at hoff
      omega
    · rw [clean_pixel_coordinates_hi c m (by omega)] at hoff
      by_cases h2 : c > m
      · simp [h2] at hoff
        omega
      · simp [h2] at hoff

theorem effOff_none : effOff none = 0 := rfl

theorem effOff_some_pos (k : Int) (hk : 0 < k) : effOff (some k) = k.toNat := by
  have : ((k : Int) != 0) = true := bne_iff_ne.mpr (by omega)
  simp [effOff, offsetTruthy, offNat, this]

theorem padVert_rows (wd : NpArray) (nodata : Int) (a b : Option Int) :
    (padVert wd nodata a b).rows = effOff a + wd.rows + effOff b := by
  rcases Bool.eq_false_or_eq_true (offsetTruthy a) with hA | hA <;>
  rcases Bool.eq_false_or_eq_true (offsetTruthy b) with hB | hB <;>
    simp [padVert, effOff, hA, hB, concatRows, nodata_padding] <;> omega

theorem padVert_cols (wd : NpArray) (nodata : Int) (a b : Option Int) :
    (padVert wd nodata a b).cols = wd.cols := by
  rcases Bool.eq_false_or_eq_true (offsetTruthy a) with hA | hA <;>
  rcases Bool.eq_false_or_eq_true (offsetTruthy b) with hB | hB <;>
    simp [padVert, effOff, hA, hB, concatRows, nodata_padding]

theorem padHoriz_rows (wd : NpArray) (nodata : Int) (c d : Option Int) :
    (padHoriz wd nodata c d).rows = wd.rows := by
  rcases Bool.eq_false_or_eq_true (offsetTruthy c) with hC | hC <;>
  rcases Bool.eq_false_or_eq_true (offsetTruthy d) with hD | hD <;>
    simp [padHoriz, effOff, hC, hD, concatCols, nodata_padding]

theorem padHoriz_cols (wd : NpArray) (nodata : Int) (c d : Option Int) :
    (padHoriz wd nodata c d).cols = effOff c + wd.cols + effOff d := by
  rcases Bool.eq_false_or_eq_true (offsetTruthy c) with hC | hC <;>
  rcases Bool.eq_false_or_eq_true (offsetTruthy d) with hD | hD <;>
    simp [padHoriz, effOff, hC, hD, concatCols, nodata_padding] <;> omega

theorem padVert_data (wd : NpArray) (nodata : Int) (a b : Option Int)
    (i j : Nat) (hi : i < effOff a + wd.rows + effOff b) :
    (padVert wd nodata a b).data i j =
      if effOff a ≤ i ∧ i < effOff a + wd.rows
      then wd.data (i - effOff a) j
      else nodata := by
  rcases Bool.eq_false_or_eq_true (offsetTruthy a) with hA | hA <;>
  rcases Bool.eq_false_or_eq_true (offsetTruthy b) with hB | hB <;>
    simp only [padVert, effOff, hA, hB, if_true, if_false, Bool.false_eq_true,
      concatRows, nodata_padding] at * <;>
    split_ifs <;>
    first
      | rfl
      | (exfalso; omega)
      | (congr 1 <;> omega)

theorem padHoriz_data (wd : NpArray) (nodata : Int) (c d : Option Int)
    (i j : Nat) (hj : j < effOff c + wd.cols + effOff d) :
    (padHoriz wd nodata c d).data i j =
      if effOff c ≤ j ∧ j < effOff c + wd.cols
      then wd.data i (j - effOff c)
      else nodata := by
  rcases Bool.eq_false_or_eq_true (offsetTruthy c) with hC | hC <;>
  rcases Bool.eq_false_or_eq_true (offsetTruthy d) with hD | hD <;>
    simp only [padHoriz, effOff, hC, hD, if_true, if_false, Bool.false_eq_true,
      concatCols, nodata_padding] at * <;>
    split_ifs <;>
    first
      | rfl
      | (exfalso; omega)
      | (congr 1 <;> omega)

/-- Shape of the padded window: each applied padding branch adds its offset
to the matching dimension. -/
theorem pad_window_shape (wd : NpArray) (nodata : Int) (a b c d : Option Int) :
    (pad_window wd nodata a b c d).rows = effOff a + wd.rows + effOff b
    ∧ (pad_window wd nodata a b c d).cols = effOff c + wd.cols + effOff d := by
  unfold pad_window
  rw [padHoriz_rows, padHoriz_cols, padVert_rows, padVert_cols]
  exact ⟨rfl, rfl⟩

/-- Content of the padded window: inside the un-padded core the original
window pixels survive untouched; every padded position reads nodata. -/
theorem pad_window_data (wd : NpArray) (nodata : Int) (a b c d : Option Int)
    (i j : Nat)
    (hi : i < effOff a + wd.rows + effOff b)
    (hj : j < effOff c + wd.cols + effOff d) :
    (pad_window wd nodata a b c d).data i j =
      if effOff a ≤ i ∧ i < effOff a + wd.rows
          ∧ effOff c ≤ j ∧ j < effOff c + wd.cols
      then wd.data (i - effOff a) (j - effOff c)
      else nodata := by
  unfold pad_window
  rw [padHoriz_data _ _ _ _ _ _ (by rw [padVert_cols]; exact hj)]
  rw [padVert_cols]
  by_cases hcol : effOff c ≤ j ∧ j < effOff c + wd.cols
  · rw [if_pos hcol, padVert_data _ _ _ _ _ _ hi]
    split_ifs <;> first | rfl | (exfalso; omega)
  · rw [if_neg hcol, if_neg (by tauto)]

theorem effOff_if (P : Prop) [Decidable P] (k : Int) (hk : P → 0 < k) :
    effOff (if P then some k else none) = if P then k.toNat else 0 := by
  split_ifs with h
  · exact effOff_some_pos k (hk h)
  · exact effOff_none

/-- C2: for every tile-window read that (partially) exceeds the source
extent, the pre-warp array produced by the window stage of
`read_raster_window` has exactly the originally requested shape
`(maxrow − minrow) × (maxcol − mincol)`; every position whose requested
source coordinate lies inside the source extent carries that exact source
pixel (no read pixel is stretched or moved), and every position outside the
extent is filled with the source nodata value — i.e. deficits pad the
top/left edges and excesses pad the bottom/right edges with nodata. -/
theorem read_raster_window_padding_spec
    (H W : Int) (src : Int → Int → Int) (src_dtype : String) (nodata : Int)
    (minrow maxrow mincol maxcol : Int)
    (hH : 0 ≤ H) (hW : 0 ≤ W)
    (hrd : minrow ≤ maxrow) (hcd : mincol ≤ maxcol)
    (hr1 : minrow ≤ H) (hr2 : 0 ≤ maxrow)
    (hc1 : mincol ≤ W) (hc2 : 0 ≤ maxcol) :
    (window_stage H W src src_dtype nodata minrow maxrow mincol maxcol).rows
        = (maxrow - minrow).toNat
    ∧ (window_stage H W src src_dtype nodata minrow maxrow mincol maxcol).cols
        = (maxcol - mincol).toNat
    ∧ ∀ i j : Nat, i < (maxrow - minrow).toNat → j < (maxcol - mincol).toNat →
        (window_stage H W src src_dtype nodata minrow maxrow mincol maxcol).data
            i j
          = if 0 ≤ minrow + i ∧ minrow + i < H ∧ 0 ≤ mincol + j ∧ mincol + j < W
            then src (minrow + i) (mincol + j)
            else nodata := by
  have hminrow := clean_pixel_coordinates_lo minrow H hH hr1
  have hmaxrow := clean_pixel_coordinates_hi maxrow H hr2
  have hmincol := clean_pixel_coordinates_lo mincol W hW hc1
  have hmaxcol := clean_pixel_coordinates_hi maxcol W hc2
  simp only [window_stage]
  rw [hminrow, hmaxrow, hmincol, hmaxcol]
  dsimp only
  have eA : effOff (if minrow < 0 then some (-minrow) else none)
      = if minrow < 0 then (-minrow).toNat else 0 :=
    effOff_if _ _ (fun h => by omega)
  have eB : effOff (if maxrow > H then some (maxrow - H) else none)
      = if maxrow > H then (maxrow - H).toNat else 0 :=
    effOff_if _ _ (fun h => by omega)
  have eC : effOff (if mincol < 0 then some (-mincol) else none)
      = if mincol < 0 then (-mincol).toNat else 0 :=
    effOff_if _ _ (fun h => by omega)
  have eD : effOff (if maxcol > W then some (maxcol - W) else none)
      = if maxcol > W then (maxcol - W).toNat else 0 :=
    effOff_if _ _ (fun h => by omega)
  refine ⟨?_, ?_, ?_⟩
  · rw [(pad_window_shape _ _ _ _ _ _).1, eA, eB]
    dsimp only
    split_ifs <;> omega
  · rw [(pad_window_shape _ _ _ _ _ _).2, eC, eD]
    dsimp only
    split_ifs <;> omega
  · intro i j hi hj
    rw [pad_window_data _ _ _ _ _ _ i j
      (by rw [eA, eB]; dsimp only; split_ifs <;> omega)
      (by rw [eC, eD]; dsimp only; split_ifs <;> omega)]
    rw [eA, eC]
    dsimp only
    split_ifs <;>
      first
        | rfl
        | (congr 1 <;> omega)
        | (exfalso; omega)

/-- C1 witness: `clean_pixel_coordinates` evaluated through the theorem at
`c = -3, m = 10` (and the concrete behaviours at `-3`, `14`, `7`). -/
theorem clean_pixel_coordinates_spec_witness :
    (((-3 : Int) < 0 → clean_pixel_coordinates (-3) 10 = (0, some 3))
    ∧ ((-3 : Int) > 10 → clean_pixel_coordinates (-3) 10 = (10, some (-13)))
    ∧ ((0 : Int) ≤ -3 → (-3 : Int) ≤ 10 →
        clean_pixel_coordinates (-3) 10 = (-3, none))
    ∧ (∀ off : Int, (clean_pixel_coordinates (-3) 10).2 = some off → 0 ≤ off)) := by
  have h := clean_pixel_coordinates_spec (-3) 10 (by decide)
  refine ⟨fun _ => ?_, fun hc => absurd hc (by decide), fun hc => absurd hc (by decide), h.2.2.2⟩
  have := h.1 (by decide)
  simpa using this

/-- C2 witness: the padding theorem applied to a 4×4 source, nodata −9, and
the requested window rows [−2, 3) × cols [1, 6): the padded array is 5×5,
its corner (0,0) is nodata (top/left padding), and position (2,1) carries
source pixel (0,2) untouched. -/
theorem read_raster_window_padding_spec_witness :
    (window_stage 4 4 exSrc "int16" (-9) (-2) 3 1 6).rows = 5
    ∧ (window_stage 4 4 exSrc "int16" (-9) (-2) 3 1 6).cols = 5
    ∧ (window_stage 4 4 exSrc "int16" (-9) (-2) 3 1 6).data 0 0 = -9
    ∧ (window_stage 4 4 exSrc "int16" (-9) (-2) 3 1 6).data 2 1 = 2 := by
  have h := read_raster_window_padding_spec 4 4 exSrc "int16" (-9) (-2) 3 1 6
    (by decide) (by decide) (by decide) (by decide) (by decide) (by decide)
    (by decide) (by decide)
  refine ⟨h.1.trans (by decide), h.2.1.trans (by decide), ?_, ?_⟩
  · have h00 := h.2.2 0 0 (by decide) (by decide)
    rw [h00]
    norm_num
  · have h21 := h.2.2 2 1 (by decide) (by decide)
    rw [h21]
    norm_num [exSrc]

/-- C3 counterexample: with `tilify` disabled (an allowed parameter of the
same entry point), `read_raster_window` returns the un-warped window array:
at a 2×2 in-bounds window on a grid with `px_per_tile = 4` and no pixel
buffer the returned array is 2×2, not 4×4. -/
theorem read_shape_counterexample :
    optShape (read_raster_window exNoTilify constWarp) = some (2, 2)
    ∧ exNoTilify.px_per_tile + 2 * exNoTilify.pixelbuffer.getD 0 = 4
    ∧ (2 : Nat) ≠ 4 := by
  refine ⟨?_, by decide, by decide⟩
  rfl

theorem destination_pixel_eq (px : Nat) (pb : Option Nat) :
    destination_pixel px pb = px + 2 * pb.getD 0 := by
  cases pb with
  | none => rfl
  | some k =>
    by_cases hk : k = 0
    · subst hk; rfl
    · have hstep : destination_pixel px (some k) = px + k * 2 := by
        show (if k ≠ 0 then px + k * 2 else px) = px + k * 2
        rw [if_pos hk]
      rw [hstep]
      simp only [Option.getD_some]
      omega

/-- C3 (amended): for every request with `tilify` enabled that returns an
array, the array's shape is exactly
`(px_per_tile + 2*pixelbuffer) × (px_per_tile + 2*pixelbuffer)` (the pixel
buffer counting as 0 when absent), also for windows straddling a source
edge. -/
theorem read_shape_spec (inp : RRWInput)
    (warp : NpArray → Option (Nat → Nat → Int)) (a : NpArray)
    (htil : inp.tilify = true)
    (h : read_raster_window inp warp = some a) :
    a.rows = inp.px_per_tile + 2 * inp.pixelbuffer.getD 0
    ∧ a.cols = inp.px_per_tile + 2 * inp.pixelbuffer.getD 0 := by
  simp only [read_raster_window] at h
  rw [htil] at h
  rw [if_pos (rfl : (true : Bool) = true)] at h
  split at h
  · exact absurd h (by simp)
  · split at h
    · rename_i f hw
      cases h
      exact ⟨destination_pixel_eq _ _, destination_pixel_eq _ _⟩
    · exact absurd h (by simp)

/-- C3 witness: the amended shape theorem applied at `exTilify`
(`px_per_tile = 4`, pixel buffer 1, tilify on): the returned 6×6 array has
shape `4 + 2*1` in both dimensions. -/
theorem read_shape_spec_witness :
    (NpArray.mk 6 6 "int16" (fun _ _ => 0)).rows
        = exTilify.px_per_tile + 2 * exTilify.pixelbuffer.getD 0
    ∧ (NpArray.mk 6 6 "int16" (fun _ _ => 0)).cols
        = exTilify.px_per_tile + 2 * exTilify.pixelbuffer.getD 0 :=
  read_shape_spec exTilify constWarp _ rfl rfl

/-- C7 counterexample: at a concrete in-bounds tilified request whose warp
step fails, `read_raster_window` returns no array at all (`None`), not a
nodata-filled array of the expected shape. -/
theorem warp_failure_counterexample :
    read_raster_window exTilify failingWarp = none := rfl

/-- C7 (amended): whenever the warp/reprojection step fails,
`read_raster_window` returns `(None, None)` — the affected band resolves to
no array rather than to a nodata-filled array of the expected shape. -/
theorem warp_failure_spec (inp : RRWInput)
    (warp : NpArray → Option (Nat → Nat → Int))
    (htil : inp.tilify = true)
    (hfail : warp (window_stage inp.H inp.W inp.src inp.src_dtype inp.nodata
      inp.minrow inp.maxrow inp.mincol inp.maxcol) = none) :
    read_raster_window inp warp = none := by
  simp only [read_raster_window]
  rw [htil]
  rw [if_pos (rfl : (true : Bool) = true)]
  split
  · rfl
  · rw [hfail]

/-- C7 witness: the amended warp-failure theorem applied at `exTilify` with
the always-failing warp. -/
theorem warp_failure_spec_witness :
    read_raster_window exTilify failingWarp = none :=
  warp_failure_spec exTilify failingWarp rfl rfl

/-- C10: every array returned by a tilified `read_raster_window` call has
dtype int16 — the destination is allocated as `np.zeros(shape, np.int16)`
regardless of the source's declared dtype — and every synthesized nodata
padding array has dtype int16 as well. -/
theorem tilify_dtype_spec (inp : RRWInput)
    (warp : NpArray → Option (Nat → Nat → Int)) (a : NpArray)
    (htil : inp.tilify = true)
    (h : read_raster_window inp warp = some a) :
    a.dtype = "int16" ∧ ∀ r c v, (nodata_padding r c v).dtype = "int16" := by
  simp only [read_raster_window] at h
  rw [htil] at h
  rw [if_pos (rfl : (true : Bool) = true)] at h
  split at h
  · exact absurd h (by simp)
  · split at h
    · cases h
      exact ⟨rfl, fun _ _ _ => rfl⟩
    · exact absurd h (by simp)

/-- C10 witness: the dtype theorem applied at `exTilify` (whose source
dtype tag is irrelevant to the output), plus a concrete padding array. -/
theorem tilify_dtype_spec_witness :
    (NpArray.mk 6 6 "int16" (fun _ _ => 0)).dtype = "int16"
    ∧ (nodata_padding 3 4 (-5)).dtype = "int16" :=
  ⟨(tilify_dtype_spec exTilify constWarp _ rfl rfl).1,
    (tilify_dtype_spec exTilify constWarp _ rfl rfl).2 3 4 (-5)⟩

end TilematrixIO

namespace RasterData

theorem bands_step_fst (reader : Int → MaskedArray) (cache : Cache) (i : Int)
    (hcons : consistent cache reader) :
    (bands_step reader cache i).1 = reader i := by
  unfold bands_step
  cases h : cacheLookup cache i with
  | none => rfl
  | some v => exact hcons i v h

theorem bands_step_consistent (reader : Int → MaskedArray) (cache : Cache)
    (i : Int) (hcons : consistent cache reader) :
    consistent (bands_step reader cache i).2.1 reader := by
  unfold bands_step
  cases h : cacheLookup cache i with
  | none =>
    intro k v hk
    simp only [cacheLookup] at hk
    split at hk
    · rename_i hik
      subst hik
      cases hk
      rfl
    · exact hcons k v hk
  | some v => exact hcons

/-- C4: per-band memoization of `_bands_from_cache`.  A step on an uncached
index performs exactly one read/warp, yields `reader i` and stores it; a
step on a cached index yields the stored value unchanged with zero reads;
after any step the yielded value is cached, so a second run over the same
index returns the identical value with no further read. -/
theorem band_cache_spec (reader : Int → MaskedArray) (cache : Cache)
    (i : Int) (b : MaskedArray) :
    (cacheLookup cache i = none →
      bands_step reader cache i = (reader i, (i, reader i) :: cache, 1))
    ∧ (cacheLookup cache i = some b →
      bands_step reader cache i = (b, cache, 0))
    ∧ cacheLookup (bands_step reader cache i).2.1 i
        = some (bands_step reader cache i).1
    ∧ (cacheLookup cache i = none →
        bands_from_cache reader cache [i]
            = ([reader i], (i, reader i) :: cache, 1)
        ∧ bands_from_cache reader ((i, reader i) :: cache) [i]
            = ([reader i], (i, reader i) :: cache, 0)) := by
  refine ⟨?_, ?_, ?_, ?_⟩
  · intro h
    simp [bands_step, h]
  · intro h
    simp [bands_step, h]
  · cases h : cacheLookup cache i with
    | none => simp [bands_step, h, cacheLookup]
    | some v => simp [bands_step, h]
  · intro h
    constructor
    · simp [bands_from_cache, bands_step, h]
    · simp [bands_from_cache, bands_step, cacheLookup]

/-- C4 witness: the caching theorem at the empty session cache and band 1:
the first run reads once and stores, the second run re-yields the stored
band with zero reads. -/
theorem band_cache_spec_witness :
    bands_from_cache exReader [] [1] = ([exReader 1], [(1, exReader 1)], 1)
    ∧ bands_from_cache exReader [(1, exReader 1)] [1]
        = ([exReader 1], [(1, exReader 1)], 0) :=
  (band_cache_spec exReader [] 1 (allInvalid 0 0)).2.2.2 rfl

theorem mergeGroups_mask_iff (gs : List MaskedArray) (init : MaskedArray)
    (i j : Nat) :
    (gs.foldl mergeStep init).mask i j = false
      ↔ (init.mask i j = false ∨ ∃ g ∈ gs, g.mask i j = false) := by
  induction gs generalizing init with
  | nil => simp
  | cons g rest ih =>
    rw [List.foldl_cons, ih]
    by_cases hm : init.mask i j = true
    · simp [mergeStep, hm]
    · have hm' : init.mask i j = false := by
        revert hm
        cases init.mask i j <;> simp
      simp [mergeStep, hm']

/-- C5: the compositor.  The running result starts entirely invalid at the
tile shape; at each group, pixels still invalid take that group's data and
mask while valid pixels stay untouched; hence an output pixel of
`mergeGroups` is valid iff some group is valid there; and merging an
all-invalid group array changes no mask and no valid pixel (a no-op). -/
theorem compositor_spec (r c : Nat) (gs : List MaskedArray)
    (band g : MaskedArray) (i j : Nat) :
    (allInvalid r c).mask i j = true
    ∧ (band.mask i j = true →
        (mergeStep band g).data i j = g.data i j
        ∧ (mergeStep band g).mask i j = g.mask i j)
    ∧ (band.mask i j = false →
        (mergeStep band g).data i j = band.data i j
        ∧ (mergeStep band g).mask i j = false)
    ∧ ((mergeGroups r c gs).mask i j = false ↔ ∃ g2 ∈ gs, g2.mask i j = false)
    ∧ (mergeStep band (allInvalid r c)).mask i j = band.mask i j
    ∧ (band.mask i j = false →
        (mergeStep band (allInvalid r c)).data i j = band.data i j) := by
  refine ⟨rfl, ?_, ?_, ?_, ?_, ?_⟩
  · intro h
    simp [mergeStep, h]
  · intro h
    simp [mergeStep, h]
  · rw [mergeGroups, mergeGroups_mask_iff]
    simp [allInvalid]
  · by_cases h : band.mask i j = true <;> simp_all [mergeStep, allInvalid]
  · intro h
    simp [mergeStep, h]

/-- C5 witness: the compositor theorem at the complementary 2×2
checkerboard groups of §8 of the spec, pixel (0,1): the merged pixel is
valid because one of the groups is valid there. -/
theorem compositor_spec_witness :
    ((mergeGroups 2 2 [exGroupA, exGroupB]).mask 0 1 = false
      ↔ ∃ g2 ∈ [exGroupA, exGroupB], g2.mask 0 1 = false)
    ∧ (mergeGroups 2 2 [exGroupA, exGroupB]).mask 0 1 = false :=
  ⟨(compositor_spec 2 2 [exGroupA, exGroupB] exGroupA exGroupB 0 1).2.2.2.1,
    (compositor_spec 2 2 [exGroupA, exGroupB] exGroupA exGroupB 0 1).2.2.2.1.mpr
      ⟨exGroupB, by simp, by decide⟩⟩

theorem is_empty_loop_iff (reader : Int → MaskedArray) (cache : Cache)
    (idxs : List Int) (hcons : consistent cache reader) :
    (is_empty_loop reader cache idxs).1 = true
      ↔ ∀ i ∈ idxs, hasValidPixel (reader i) = false := by
  induction idxs generalizing cache with
  | nil => simp [is_empty_loop]
  | cons i rest ih =>
    simp only [is_empty_loop]
    rw [bands_step_fst reader cache i hcons]
    by_cases hv : hasValidPixel (reader i) = true
    · simp [hv]
    · have hv' : hasValidPixel (reader i) = false := by
        revert hv
        cases hasValidPixel (reader i) <;> simp
      simp [hv', ih _ (bands_step_consistent reader cache i hcons)]

/-- C6: `is_empty`.  When the tile geometry misses the source footprint it
is true with zero band reads; when no source tile paths resolve it is true;
otherwise it is true iff every requested band is entirely masked (false as
soon as one band has a valid pixel). -/
theorem is_empty_spec (intersects : Bool) (tile_paths : List String)
    (reader : Int → MaskedArray) (cache : Cache) (idxs : List Int)
    (hcons : consistent cache reader) :
    (intersects = false →
      is_empty intersects tile_paths reader cache idxs = (true, cache, 0))
    ∧ (tile_paths = [] →
      (is_empty intersects tile_paths reader cache idxs).1 = true)
    ∧ (intersects = true → tile_paths ≠ [] →
      ((is_empty intersects tile_paths reader cache idxs).1 = true
        ↔ ∀ i ∈ idxs, hasValidPixel (reader i) = false)) := by
  refine ⟨?_, ?_, ?_⟩
  · intro h
    simp [is_empty, h]
  · intro h
    cases intersects <;> simp [is_empty, h]
  · intro hint hpaths
    have hne : tile_paths.isEmpty = false := by
      cases tile_paths with
      | nil => exact absurd rfl hpaths
      | cons p ps => rfl
    simp only [is_empty, hint, Bool.not_true, Bool.false_eq_true, if_false,
      hne]
    exact is_empty_loop_iff reader cache idxs hcons

/-- C6 witness: the emptiness theorem at a fresh session over one resolved
source path and band 1, with an entirely masked reader: `is_empty` is true
and agrees with the all-masked test. -/
theorem is_empty_spec_witness :
    ((is_empty true ["tile.tif"] exReader [] [1]).1 = true
      ↔ ∀ i ∈ [(1 : Int)], hasValidPixel (exReader i) = false)
    ∧ (is_empty false ["tile.tif"] exReader [] [1]) = (true, [], 0) :=
  ⟨(is_empty_spec true ["tile.tif"] exReader [] [1]
      (fun k v h => by simp [cacheLookup] at h)).2.2 rfl (by simp),
    (is_empty_spec false ["tile.tif"] exReader [] [1]
      (fun k v h => by simp [cacheLookup] at h)).1 rfl⟩

/-- C8: session-open validation.  A missing source file raises the
source-not-found error with no read performed; a negative pixel buffer, a
non-integer pixel buffer or an unknown resampling method raises an error
with no read performed — all eagerly at session-open time. -/
theorem init_validation_spec (p : InitParams) :
    (p.fileExists = false →
      rasterFileTile_init p = (Except.error InitError.sourceNotFound, 0))
    ∧ ((p.pixelbuffer < 0 ∨ p.pixelbuffer.isInt = false
          ∨ RESAMPLING_METHODS.contains p.resampling = false) →
        raised (rasterFileTile_init p) = true
        ∧ (rasterFileTile_init p).2 = 0) := by
  constructor
  · intro h
    simp [rasterFileTile_init, h]
  · intro h
    unfold rasterFileTile_init
    split_ifs with h1 h2 h3 h4
    all_goals try exact ⟨rfl, rfl⟩
    exfalso
    rcases h with h | h | h
    · exact absurd h2 (not_le.mpr h)
    · exact h3 (by rw [h]; rfl)
    · exact h4 (by rw [h]; rfl)

/-- C8 witness: the validation theorem at a missing file and at a negative
pixel buffer. -/
theorem init_validation_spec_witness :
    rasterFileTile_init ⟨false, 0, "nearest"⟩
        = (Except.error InitError.sourceNotFound, 0)
    ∧ raised (rasterFileTile_init ⟨true, -1, "nearest"⟩) = true
    ∧ (rasterFileTile_init ⟨true, -1, "nearest"⟩).2 = 0 :=
  ⟨(init_validation_spec ⟨false, 0, "nearest"⟩).1 rfl,
    (init_validation_spec ⟨true, -1, "nearest"⟩).2
      (Or.inl (by norm_num))⟩

/-- C9: `read` return arity.  With no index the resolved band list is all
configured bands `1..band_count` (and, when there are at least two bands,
`read` returns the sequence of exactly those bands); a call whose resolved
index list has exactly one entry returns a single band value; a call
resolving to more than one band returns a sequence. -/
theorem read_return_spec (reader : Int → MaskedArray) (cache : Cache)
    (band_count : Nat) (indexes : Indexes) :
    get_band_indexes band_count Indexes.none
        = (List.range band_count).map (fun k : Nat => (k : Int) + 1)
    ∧ (2 ≤ band_count →
        read reader cache band_count Indexes.none
          = Sum.inr (bands_from_cache reader cache
              ((List.range band_count).map (fun k : Nat => (k : Int) + 1))).1)
    ∧ ((get_band_indexes band_count indexes).length = 1 →
        isSingle (read reader cache band_count indexes) = true)
    ∧ (1 < (get_band_indexes band_count indexes).length →
        isSingle (read reader cache band_count indexes) = false) := by
  have hnone : get_band_indexes band_count Indexes.none
      = (List.range band_count).map (fun k : Nat => (k : Int) + 1) := rfl
  refine ⟨hnone, ?_, ?_, ?_⟩
  · intro h2
    unfold read
    split
    · rename_i x i heq
      rw [hnone] at heq
      have hlen := congrArg List.length heq
      rw [List.length_map, List.length_range] at hlen
      simp at hlen
      omega
    · rw [hnone]
  · intro hlen
    unfold read
    split
    · rfl
    · rename_i x hne
      obtain ⟨y, hy⟩ := List.length_eq_one.mp hlen
      exact (hne y hy).elim
  · intro hlen
    unfold read
    split
    · rename_i x i heq
      rw [heq] at hlen
      simp at hlen
    · rfl

/-- C9 witness: the arity theorem at three configured bands: a scalar index
yields a single value, no index yields the sequence of bands 1..3. -/
theorem read_return_spec_witness :
    get_band_indexes 3 Indexes.none
        = (List.range 3).map (fun k : Nat => (k : Int) + 1)
    ∧ isSingle (read exReader [] 3 (Indexes.scalar 2)) = true
    ∧ isSingle (read exReader [] 3 Indexes.none) = false :=
  ⟨(read_return_spec exReader [] 3 Indexes.none).1,
    (read_return_spec exReader [] 3 (Indexes.scalar 2)).2.2.1 (by decide),
    (read_return_spec exReader [] 3 Indexes.none).2.2.2 (by decide)⟩

end RasterData
